import Mathlib

/-!
Verification of the sans-io `Protocol` contract (src/src/protocol.rs).

The Rust trait `Protocol<Rin, Win, Ein>` has associated types `Rout`,
`Wout`, `Eout`, `Error`, nine operations taking `&mut self`, default
bodies for the optional operations (`handle_event`, `poll_event`,
`handle_timeout`, `poll_timeout`, `close`), and two blanket adapter
implementations (`impl Protocol for &mut P` and `impl Protocol for Box<P>`)
that forward every operation verbatim.

Shallow embedding: an implementor is a record of state-transforming
functions over an explicit state type `S` (Rust's `&mut self` becomes
`S → result × S`).  `Result<(), Error>` becomes `Except Error Unit`,
`Option<T>` becomes `Option T`, and `std::time::Instant` becomes an
abstract monotonic timestamp modelled as `Nat`.
-/

/-- Monotonic timestamp standing for `std::time::Instant`. -/
abbrev Instant : Type := Nat

/-- Embedding of the Rust trait `Protocol<Rin, Win, Ein>` with associated
types `Rout`, `Wout`, `Eout`, `Error`: a dictionary of the nine contract
operations over an explicit state type `S`.  The field defaults are the
trait's default method bodies from src/src/protocol.rs lines 35-57:
`handle_event`/`handle_timeout`/`close` return `Ok(())` and do not touch
the receiver, `poll_event`/`poll_timeout` return `None` and do not touch
the receiver. -/
structure ProtocolImpl (S Rin Win Ein Rout Wout Eout Error : Type) where
  handle_read : S → Rin → Except Error Unit × S
  poll_read : S → Option Rout × S
  handle_write : S → Win → Except Error Unit × S
  poll_write : S → Option Wout × S
  handle_event : S → Ein → Except Error Unit × S := fun s _ => (Except.ok (), s)
  poll_event : S → Option Eout × S := fun s => (none, s)
  handle_timeout : S → Instant → Except Error Unit × S := fun s _ => (Except.ok (), s)
  poll_timeout : S → Option Instant × S := fun s => (none, s)
  close : S → Except Error Unit × S := fun s => (Except.ok (), s)

/-- An implementor that supplies only the four required operations and
overrides none of the optional ones, so that `handle_event`, `poll_event`,
`handle_timeout`, `poll_timeout` and `close` are the trait defaults. -/
def ProtocolImpl.mkMinimal {S Rin Win Ein Rout Wout Eout Error : Type}
    (hr : S → Rin → Except Error Unit × S) (pr : S → Option Rout × S)
    (hw : S → Win → Except Error Unit × S) (pw : S → Option Wout × S) :
    ProtocolImpl S Rin Win Ein Rout Wout Eout Error :=
  { handle_read := hr, poll_read := pr, handle_write := hw, poll_write := pw }

/-- Embedding of `impl<P, Rin, Win, Ein> Protocol<Rin, Win, Ein> for &mut P`
(src/src/protocol.rs lines 60-104): every operation is forwarded verbatim
to the borrowed implementor, and the associated output and error types are
those of `P`. -/
def ProtocolImpl.borrowAdapter {S Rin Win Ein Rout Wout Eout Error : Type}
    (p : ProtocolImpl S Rin Win Ein Rout Wout Eout Error) :
    ProtocolImpl S Rin Win Ein Rout Wout Eout Error where
  handle_read := fun s msg => p.handle_read s msg
  poll_read := fun s => p.poll_read s
  handle_write := fun s msg => p.handle_write s msg
  poll_write := fun s => p.poll_write s
  handle_event := fun s evt => p.handle_event s evt
  poll_event := fun s => p.poll_event s
  handle_timeout := fun s now => p.handle_timeout s now
  poll_timeout := fun s => p.poll_timeout s
  close := fun s => p.close s

/-- Embedding of `impl<P, Rin, Win, Ein> Protocol<Rin, Win, Ein> for Box<P>`
(src/src/protocol.rs lines 106-150): every operation is forwarded verbatim
to the heap-owned implementor, and the associated output and error types
are those of `P`. -/
def ProtocolImpl.boxAdapter {S Rin Win Ein Rout Wout Eout Error : Type}
    (p : ProtocolImpl S Rin Win Ein Rout Wout Eout Error) :
    ProtocolImpl S Rin Win Ein Rout Wout Eout Error where
  handle_read := fun s msg => p.handle_read s msg
  poll_read := fun s => p.poll_read s
  handle_write := fun s msg => p.handle_write s msg
  poll_write := fun s => p.poll_write s
  handle_event := fun s evt => p.handle_event s evt
  poll_event := fun s => p.poll_event s
  handle_timeout := fun s now => p.handle_timeout s now
  poll_timeout := fun s => p.poll_timeout s
  close := fun s => p.close s

/-- One contract operation together with its input, naming the nine
operations of the trait. -/
inductive Op (Rin Win Ein : Type) where
  | handleRead (msg : Rin)
  | pollRead
  | handleWrite (msg : Win)
  | pollWrite
  | handleEvent (evt : Ein)
  | pollEvent
  | handleTimeout (now : Instant)
  | pollTimeout
  | doClose

/-- The result of one contract operation: either a `Result<(), Error>`
from a `handle_*`/`close` call, or the structural output of a `poll_*`
call. -/
inductive OpResult (Rout Wout Eout Error : Type) where
  | res (r : Except Error Unit)
  | outR (o : Option Rout)
  | outW (o : Option Wout)
  | outE (o : Option Eout)
  | outT (o : Option Instant)

/-- Whether an operation is one of the four `poll_*` operations. -/
def Op.isPoll {Rin Win Ein : Type} : Op Rin Win Ein → Bool
  | .pollRead => true
  | .pollWrite => true
  | .pollEvent => true
  | .pollTimeout => true
  | _ => false

/-- Whether an operation result is a structural output (an `Option`
value from a `poll_*` operation). -/
def OpResult.isOutput {Rout Wout Eout Error : Type} :
    OpResult Rout Wout Eout Error → Bool
  | .res _ => false
  | _ => true

/-- Whether an operation result is an error value. -/
def OpResult.isErr {Rout Wout Eout Error : Type} :
    OpResult Rout Wout Eout Error → Bool
  | .res (Except.error _) => true
  | _ => false

/-- Run one contract operation on an implementor, returning its result
and the successor state. -/
def runOp {S Rin Win Ein Rout Wout Eout Error : Type}
    (p : ProtocolImpl S Rin Win Ein Rout Wout Eout Error) (s : S) :
    Op Rin Win Ein → OpResult Rout Wout Eout Error × S
  | .handleRead msg => let r := p.handle_read s msg; (.res r.1, r.2)
  | .pollRead => let r := p.poll_read s; (.outR r.1, r.2)
  | .handleWrite msg => let r := p.handle_write s msg; (.res r.1, r.2)
  | .pollWrite => let r := p.poll_write s; (.outW r.1, r.2)
  | .handleEvent evt => let r := p.handle_event s evt; (.res r.1, r.2)
  | .pollEvent => let r := p.poll_event s; (.outE r.1, r.2)
  | .handleTimeout now => let r := p.handle_timeout s now; (.res r.1, r.2)
  | .pollTimeout => let r := p.poll_timeout s; (.outT r.1, r.2)
  | .doClose => let r := p.close s; (.res r.1, r.2)

/-- Run a sequence of contract operations on an implementor, returning
the list of results and the final state. -/
def runOps {S Rin Win Ein Rout Wout Eout Error : Type}
    (p : ProtocolImpl S Rin Win Ein Rout Wout Eout Error) (s : S) :
    List (Op Rin Win Ein) → List (OpResult Rout Wout Eout Error) × S
  | [] => ([], s)
  | op :: ops =>
    let r := runOp p s op
    let rest := runOps p r.2 ops
    (r.1 :: rest.1, rest.2)

/-- Drain a polling operation: call it `n` times in a row, collecting the
`n` returned options and the final state. -/
def drainPoll {S A : Type} (f : S → Option A × S) : Nat → S → List (Option A) × S
  | 0, s => ([], s)
  | Nat.succ n, s =>
    let r := f s
    let rest := drainPoll f n r.2
    (r.1 :: rest.1, rest.2)

/-- Feed a list of inbound messages through `handle_read` one after the
other, collecting the results and the final state. -/
def runHandleReads {S Rin Win Ein Rout Wout Eout Error : Type}
    (p : ProtocolImpl S Rin Win Ein Rout Wout Eout Error) (s : S) :
    List Rin → List (Except Error Unit) × S
  | [] => ([], s)
  | msg :: msgs =>
    let r := p.handle_read s msg
    let rest := runHandleReads p r.2 msgs
    (r.1 :: rest.1, rest.2)

/-- Call `close` `n` times in succession, collecting the results and the
final state. -/
def iterateClose {S Rin Win Ein Rout Wout Eout Error : Type}
    (p : ProtocolImpl S Rin Win Ein Rout Wout Eout Error) : Nat → S → List (Except Error Unit) × S
  | 0, s => ([], s)
  | Nat.succ n, s =>
    let r := p.close s
    let rest := iterateClose p n r.2
    (r.1 :: rest.1, rest.2)

/-- FIFO-queue conformance of the read channel, as the spec states it:
there is an abstraction `readQ` of the state to the queue of pending read
outputs such that `handle_read` appends the outputs it produces (given by
`emits`) at the tail, and `poll_read` dequeues the oldest element, or
returns empty and leaves the queue empty when the queue is empty. -/
structure ReadConformance {S Rin Win Ein Rout Wout Eout Error : Type}
    (p : ProtocolImpl S Rin Win Ein Rout Wout Eout Error)
    (readQ : S → List Rout) (emits : S → Rin → List Rout) : Prop where
  handle_app : ∀ s msg, readQ (p.handle_read s msg).2 = readQ s ++ emits s msg
  poll_cons : ∀ s x xs, readQ s = x :: xs →
    (p.poll_read s).1 = some x ∧ readQ (p.poll_read s).2 = xs
  poll_nil : ∀ s, readQ s = [] →
    (p.poll_read s).1 = none ∧ readQ (p.poll_read s).2 = []

/-- The read outputs produced by a sequence of `handle_read` calls, in
order of production, under the production function `emits`. -/
def producedReads {S Rin Win Ein Rout Wout Eout Error : Type}
    (p : ProtocolImpl S Rin Win Ein Rout Wout Eout Error)
    (emits : S → Rin → List Rout) (s : S) : List Rin → List Rout
  | [] => []
  | msg :: msgs => emits s msg ++ producedReads p emits (p.handle_read s msg).2 msgs

/-- State of the canonical implementor taken from the spec data model:
one FIFO queue of pending outputs per channel, and at most one pending
absolute timeout deadline. -/
structure SpecState (Rout Wout Eout : Type) where
  readQ : List Rout
  writeQ : List Wout
  eventQ : List Eout
  deadline : Option Instant

/-- Modelled from the spec: src/ holds only the abstract trait, no
conforming implementor, so the spec data model (three independent FIFO
queues and a single optional deadline) is realised here.  `handle_read`
enqueues the outputs `fr msg` at the tail of the read queue, `poll_read`
dequeues the oldest pending read output or returns empty, and likewise
for the write and event channels; `handle_timeout now` clears the
deadline once it is due; `poll_timeout` reports the pending deadline;
`close` succeeds without touching the state. -/
def specProtocol {Rin Win Ein Rout Wout Eout Error : Type}
    (fr : Rin → List Rout) (fw : Win → List Wout) (fe : Ein → List Eout) :
    ProtocolImpl (SpecState Rout Wout Eout) Rin Win Ein Rout Wout Eout Error where
  handle_read := fun s msg => (Except.ok (), { s with readQ := s.readQ ++ fr msg })
  poll_read := fun s =>
    match s.readQ with
    | [] => (none, s)
    | x :: xs => (some x, { s with readQ := xs })
  handle_write := fun s msg => (Except.ok (), { s with writeQ := s.writeQ ++ fw msg })
  poll_write := fun s =>
    match s.writeQ with
    | [] => (none, s)
    | x :: xs => (some x, { s with writeQ := xs })
  handle_event := fun s evt => (Except.ok (), { s with eventQ := s.eventQ ++ fe evt })
  poll_event := fun s =>
    match s.eventQ with
    | [] => (none, s)
    | x :: xs => (some x, { s with eventQ := xs })
  handle_timeout := fun s now =>
    (Except.ok (),
      { s with deadline :=
          match s.deadline with
          | some d => if d ≤ now then none else some d
          | none => none })
  poll_timeout := fun s => (s.deadline, s)
  close := fun s => (Except.ok (), s)

/-- Modelled from the spec: the freshly constructed state of the
canonical implementor, with all queues empty and no pending timeout. -/
def specInit {Rout Wout Eout : Type} : SpecState Rout Wout Eout :=
  { readQ := [], writeQ := [], eventQ := [], deadline := none }

/-- An implementor whose every fallible operation fails, showing that the
`handle_*` and `close` signatures admit errors. -/
def failingProtocol : ProtocolImpl Unit Unit Unit Unit Unit Unit Unit Unit where
  handle_read := fun s _ => (Except.error (), s)
  poll_read := fun s => (none, s)
  handle_write := fun s _ => (Except.error (), s)
  poll_write := fun s => (none, s)
  handle_event := fun s _ => (Except.error (), s)
  poll_event := fun s => (none, s)
  handle_timeout := fun s _ => (Except.error (), s)
  poll_timeout := fun s => (none, s)
  close := fun s => (Except.error (), s)

/-- One layer of adapter wrapping: the transient-borrow adapter or the
owned-indirection adapter. -/
inductive Adapt where
  | borrow
  | box

/-- Apply a stack of adapter layers (innermost layer listed last) to an
implementor. -/
def applyAdapters {S Rin Win Ein Rout Wout Eout Error : Type}
    (l : List Adapt) (p : ProtocolImpl S Rin Win Ein Rout Wout Eout Error) :
    ProtocolImpl S Rin Win Ein Rout Wout Eout Error :=
  match l with
  | [] => p
  | Adapt.borrow :: rest => (applyAdapters rest p).borrowAdapter
  | Adapt.box :: rest => (applyAdapters rest p).boxAdapter

/-- A concrete instantiation of the canonical implementor over `Nat`
inputs and outputs, used to evaluate the general theorems on concrete
data: each read input `m` produces the two outputs `m` and `m + 1`, each
write input `w` produces `w + 10`, each event input `e` produces
`e + 20`. -/
def specP : ProtocolImpl (SpecState Nat Nat Nat) Nat Nat Nat Nat Nat Nat Unit :=
  specProtocol (fun m => [m, m + 1]) (fun w => [w + 10]) (fun e => [e + 20])

/-- The transient-borrow adapter forwards every operation verbatim, so it
is the identity on implementors. -/
theorem borrowAdapter_eq {S Rin Win Ein Rout Wout Eout Error : Type}
    (p : ProtocolImpl S Rin Win Ein Rout Wout Eout Error) : p.borrowAdapter = p := rfl

/-- The owned-indirection adapter forwards every operation verbatim, so
it is the identity on implementors. -/
theorem boxAdapter_eq {S Rin Win Ein Rout Wout Eout Error : Type}
    (p : ProtocolImpl S Rin Win Ein Rout Wout Eout Error) : p.boxAdapter = p := rfl

/-- Any stack of adapter layers is the identity on implementors. -/
theorem applyAdapters_eq {S Rin Win Ein Rout Wout Eout Error : Type}
    (l : List Adapt) (p : ProtocolImpl S Rin Win Ein Rout Wout Eout Error) :
    applyAdapters l p = p := by
  induction l with
  | nil => rfl
  | cons a rest ih => cases a <;> simp [applyAdapters, borrowAdapter_eq, boxAdapter_eq, ih]

/-- Claim C1: for every implementor and every sequence of contract
operations, running the sequence through the transient-borrow adapter and
through the owned-indirection adapter produces exactly the results of
running it directly, and leaves the implementor in the same final state
(the adapters share the implementor's output and error type parameters by
construction). -/
theorem adapters_transparent {S Rin Win Ein Rout Wout Eout Error : Type}
    (p : ProtocolImpl S Rin Win Ein Rout Wout Eout Error) (s : S)
    (ops : List (Op Rin Win Ein)) :
    runOps p.borrowAdapter s ops = runOps p s ops ∧
    runOps p.boxAdapter s ops = runOps p s ops :=
  ⟨by rw [borrowAdapter_eq], by rw [boxAdapter_eq]⟩

/-- Claim C10: the adapters apply to any implementor, adapters included,
so any nesting of borrow and box layers is itself a conforming
implementor whose every operation behaves exactly as the innermost
wrapped implementor: same results and same final state on every operation
sequence. -/
theorem adapter_nesting_transparent {S Rin Win Ein Rout Wout Eout Error : Type}
    (l : List Adapt) (p : ProtocolImpl S Rin Win Ein Rout Wout Eout Error) (s : S)
    (ops : List (Op Rin Win Ein)) :
    runOps (applyAdapters l p) s ops = runOps p s ops := by
  rw [applyAdapters_eq]

/-- Claim C2: for an implementor overriding none of the optional
operations, `handle_event`, `handle_timeout` and `close` return success
and `poll_event`/`poll_timeout` return empty, on every call, whatever the
current state (hence however many calls precede) and whatever the
inputs. -/
theorem minimal_defaults_behavior {S Rin Win Ein Rout Wout Eout Error : Type}
    (hr : S → Rin → Except Error Unit × S) (pr : S → Option Rout × S)
    (hw : S → Win → Except Error Unit × S) (pw : S → Option Wout × S)
    (s : S) (evt : Ein) (now : Instant) :
    ((@ProtocolImpl.mkMinimal S Rin Win Ein Rout Wout Eout Error hr pr hw pw).handle_event s evt).1
        = Except.ok () ∧
    ((@ProtocolImpl.mkMinimal S Rin Win Ein Rout Wout Eout Error hr pr hw pw).handle_timeout s now).1
        = Except.ok () ∧
    ((@ProtocolImpl.mkMinimal S Rin Win Ein Rout Wout Eout Error hr pr hw pw).close s).1
        = Except.ok () ∧
    ((@ProtocolImpl.mkMinimal S Rin Win Ein Rout Wout Eout Error hr pr hw pw).poll_event s).1
        = none ∧
    ((@ProtocolImpl.mkMinimal S Rin Win Ein Rout Wout Eout Error hr pr hw pw).poll_timeout s).1
        = none :=
  ⟨rfl, rfl, rfl, rfl, rfl⟩

/-- Claim C8: the default bodies of `handle_event`, `poll_event`,
`handle_timeout`, `poll_timeout` and `close` leave the instance state
exactly as it was before the call. -/
theorem minimal_defaults_frame {S Rin Win Ein Rout Wout Eout Error : Type}
    (hr : S → Rin → Except Error Unit × S) (pr : S → Option Rout × S)
    (hw : S → Win → Except Error Unit × S) (pw : S → Option Wout × S)
    (s : S) (evt : Ein) (now : Instant) :
    ((@ProtocolImpl.mkMinimal S Rin Win Ein Rout Wout Eout Error hr pr hw pw).handle_event s evt).2
        = s ∧
    ((@ProtocolImpl.mkMinimal S Rin Win Ein Rout Wout Eout Error hr pr hw pw).poll_event s).2 = s ∧
    ((@ProtocolImpl.mkMinimal S Rin Win Ein Rout Wout Eout Error hr pr hw pw).handle_timeout s now).2
        = s ∧
    ((@ProtocolImpl.mkMinimal S Rin Win Ein Rout Wout Eout Error hr pr hw pw).poll_timeout s).2
        = s ∧
    ((@ProtocolImpl.mkMinimal S Rin Win Ein Rout Wout Eout Error hr pr hw pw).close s).2 = s :=
  ⟨rfl, rfl, rfl, rfl, rfl⟩

/-- Claim C9: the default `handle_event` and `handle_timeout` are
input-independent: applied to the same state, any two event values (or
any two instants) give identical results — both `Ok` — and identical
final states. -/
theorem minimal_defaults_input_independent {S Rin Win Ein Rout Wout Eout Error : Type}
    (hr : S → Rin → Except Error Unit × S) (pr : S → Option Rout × S)
    (hw : S → Win → Except Error Unit × S) (pw : S → Option Wout × S)
    (s : S) (e1 e2 : Ein) (t1 t2 : Instant) :
    (@ProtocolImpl.mkMinimal S Rin Win Ein Rout Wout Eout Error hr pr hw pw).handle_event s e1
        = (@ProtocolImpl.mkMinimal S Rin Win Ein Rout Wout Eout Error hr pr hw pw).handle_event s e2 ∧
    ((@ProtocolImpl.mkMinimal S Rin Win Ein Rout Wout Eout Error hr pr hw pw).handle_event s e1).1
        = Except.ok () ∧
    (@ProtocolImpl.mkMinimal S Rin Win Ein Rout Wout Eout Error hr pr hw pw).handle_timeout s t1
        = (@ProtocolImpl.mkMinimal S Rin Win Ein Rout Wout Eout Error hr pr hw pw).handle_timeout s t2 ∧
    ((@ProtocolImpl.mkMinimal S Rin Win Ein Rout Wout Eout Error hr pr hw pw).handle_timeout s t1).1
        = Except.ok () :=
  ⟨rfl, rfl, rfl, rfl⟩

/-- Iterating the default `close` any number of times returns `Ok` each
time and leaves the state untouched. -/
theorem iterateClose_mkMinimal {S Rin Win Ein Rout Wout Eout Error : Type}
    (hr : S → Rin → Except Error Unit × S) (pr : S → Option Rout × S)
    (hw : S → Win → Except Error Unit × S) (pw : S → Option Wout × S) :
    ∀ (n : Nat) (s : S),
      iterateClose (@ProtocolImpl.mkMinimal S Rin Win Ein Rout Wout Eout Error hr pr hw pw) n s
        = (List.replicate n (Except.ok ()), s) := by
  intro n
  induction n with
  | zero => intro s; rfl
  | succ n ih =>
    intro s
    have hclose :
        (@ProtocolImpl.mkMinimal S Rin Win Ein Rout Wout Eout Error hr pr hw pw).close s
          = (Except.ok (), s) := rfl
    simp only [iterateClose, hclose, ih s, List.replicate_succ]

/-- Claim C6: `close` may be called any number of times in succession:
with the default implementation every repeated call returns success and
the state is unchanged, and any subsequent operation behaves exactly as
it would have before the repeated closes (every operation is a total
function, so no call can fail to complete). -/
theorem close_repeated_safe {S Rin Win Ein Rout Wout Eout Error : Type}
    (hr : S → Rin → Except Error Unit × S) (pr : S → Option Rout × S)
    (hw : S → Win → Except Error Unit × S) (pw : S → Option Wout × S)
    (n : Nat) (s : S) (op : Op Rin Win Ein) :
    iterateClose (@ProtocolImpl.mkMinimal S Rin Win Ein Rout Wout Eout Error hr pr hw pw) n s
        = (List.replicate n (Except.ok ()), s) ∧
    runOp (@ProtocolImpl.mkMinimal S Rin Win Ein Rout Wout Eout Error hr pr hw pw)
        (iterateClose (@ProtocolImpl.mkMinimal S Rin Win Ein Rout Wout Eout Error hr pr hw pw) n s).2
        op
      = runOp (@ProtocolImpl.mkMinimal S Rin Win Ein Rout Wout Eout Error hr pr hw pw) s op := by
  refine ⟨iterateClose_mkMinimal hr pr hw pw n s, ?_⟩
  rw [iterateClose_mkMinimal hr pr hw pw n s]

/-- Claim C4: on the freshly constructed canonical instance, before any
`handle_*` call, `poll_read`, `poll_write`, `poll_event` and
`poll_timeout` each return empty, and no timeout deadline is pending. -/
theorem fresh_instance_empty {Rin Win Ein Rout Wout Eout Error : Type}
    (fr : Rin → List Rout) (fw : Win → List Wout) (fe : Ein → List Eout) :
    ((@specProtocol Rin Win Ein Rout Wout Eout Error fr fw fe).poll_read specInit).1 = none ∧
    ((@specProtocol Rin Win Ein Rout Wout Eout Error fr fw fe).poll_write specInit).1 = none ∧
    ((@specProtocol Rin Win Ein Rout Wout Eout Error fr fw fe).poll_event specInit).1 = none ∧
    ((@specProtocol Rin Win Ein Rout Wout Eout Error fr fw fe).poll_timeout specInit).1 = none ∧
    (@specInit Rout Wout Eout).deadline = none :=
  ⟨rfl, rfl, rfl, rfl, rfl⟩

/-- Claim C5: a `poll_*` operation always yields a structural `Option`
output — never a `Result`, hence never an error — for every implementor
and state, while each `handle_*` operation and `close` yields a `Result`
value, and each of them can actually fail: `failingProtocol` returns an
error on every such call. -/
theorem poll_infallible_handle_fallible :
    (∀ {S Rin Win Ein Rout Wout Eout Error : Type}
       (p : ProtocolImpl S Rin Win Ein Rout Wout Eout Error) (s : S) (op : Op Rin Win Ein),
       (runOp p s op).1.isOutput = op.isPoll) ∧
    (∀ op : Op Unit Unit Unit, op.isPoll = false →
       (runOp failingProtocol () op).1.isErr = true) := by
  constructor
  · intro S Rin Win Ein Rout Wout Eout Error p s op
    cases op <;> rfl
  · intro op h
    cases op <;> simp_all [Op.isPoll, runOp, failingProtocol, OpResult.isErr]

/-- Witness for C5: at the concrete operations `close` (fallible on the
failing implementor) and `poll_read` (structural output). -/
theorem poll_infallible_handle_fallible_witness :
    (runOp failingProtocol () (Op.doClose : Op Unit Unit Unit)).1.isErr = true ∧
    (runOp failingProtocol () (Op.pollRead : Op Unit Unit Unit)).1.isOutput
      = (Op.pollRead : Op Unit Unit Unit).isPoll :=
  ⟨poll_infallible_handle_fallible.2 Op.doClose rfl,
   poll_infallible_handle_fallible.1 failingProtocol () Op.pollRead⟩

/-- Under read-channel conformance, a sequence of `handle_read` calls
appends exactly the outputs it produces at the tail of the read queue. -/
theorem readQ_runHandleReads {S Rin Win Ein Rout Wout Eout Error : Type}
    {p : ProtocolImpl S Rin Win Ein Rout Wout Eout Error}
    {readQ : S → List Rout} {emits : S → Rin → List Rout}
    (hc : ReadConformance p readQ emits) :
    ∀ (msgs : List Rin) (s : S),
      readQ (runHandleReads p s msgs).2 = readQ s ++ producedReads p emits s msgs := by
  intro msgs
  induction msgs with
  | nil => intro s; simp [runHandleReads, producedReads]
  | cons m ms ih =>
    intro s
    simp only [runHandleReads, producedReads]
    rw [ih, hc.handle_app, List.append_assoc]

/-- Under read-channel conformance, draining `poll_read` `n` times from a
state whose queue holds `readQ s` yields the first `n` queued elements in
order, padded with empties once the queue is exhausted. -/
theorem drainPoll_read_spec {S Rin Win Ein Rout Wout Eout Error : Type}
    {p : ProtocolImpl S Rin Win Ein Rout Wout Eout Error}
    {readQ : S → List Rout} {emits : S → Rin → List Rout}
    (hc : ReadConformance p readQ emits) :
    ∀ (n : Nat) (s : S),
      (drainPoll p.poll_read n s).1
        = ((readQ s).take n).map some
            ++ List.replicate (n - (readQ s).length) none := by
  intro n
  induction n with
  | zero => intro s; simp [drainPoll]
  | succ n ih =>
    intro s
    cases h : readQ s with
    | nil =>
      have hp := hc.poll_nil s h
      simp only [drainPoll, hp.1, ih (p.poll_read s).2, hp.2]
      simp [List.replicate_succ]
    | cons x xs =>
      have hp := hc.poll_cons s x xs h
      simp only [drainPoll, hp.1, ih (p.poll_read s).2, hp.2]
      simp [List.replicate, Nat.succ_sub_succ]

/-- Claim C3: on any conforming implementor whose read queue starts
empty, after any sequence of `handle_read` calls, repeated `poll_read`
calls return exactly the outputs those calls produced, in FIFO order, one
element per call, and every call past the last produced output returns
empty. -/
theorem fifo_read_channel {S Rin Win Ein Rout Wout Eout Error : Type}
    {p : ProtocolImpl S Rin Win Ein Rout Wout Eout Error}
    {readQ : S → List Rout} {emits : S → Rin → List Rout}
    (hc : ReadConformance p readQ emits) (s0 : S) (h0 : readQ s0 = [])
    (msgs : List Rin) (n : Nat) :
    (drainPoll p.poll_read n (runHandleReads p s0 msgs).2).1
      = ((producedReads p emits s0 msgs).take n).map some
          ++ List.replicate (n - (producedReads p emits s0 msgs).length) none := by
  have hq := readQ_runHandleReads hc msgs s0
  rw [h0, List.nil_append] at hq
  rw [drainPoll_read_spec hc n (runHandleReads p s0 msgs).2, hq]

/-- The concrete canonical implementor `specP` conforms on the read
channel, with the state abstraction reading off the queue itself. -/
theorem specP_readConformance :
    ReadConformance specP (fun s => s.readQ) (fun _ m => [m, m + 1]) := by
  constructor
  · intro s msg; rfl
  · rintro ⟨rq, wq, vq, dl⟩ x xs h
    simp only at h
    subst h
    exact ⟨rfl, rfl⟩
  · rintro ⟨rq, wq, vq, dl⟩ h
    simp only at h
    subst h
    exact ⟨rfl, rfl⟩

/-- Witness for C3: on `specP`, feeding the reads `[1, 5]` (producing
outputs 1, 2, 5, 6) and then draining five times yields those four
outputs oldest-first followed by an empty poll. -/
theorem fifo_read_channel_witness :
    (drainPoll specP.poll_read 5 (runHandleReads specP specInit [1, 5]).2).1
      = ((producedReads specP (fun _ m => [m, m + 1]) specInit [1, 5]).take 5).map some
          ++ List.replicate
              (5 - (producedReads specP (fun _ m => [m, m + 1]) specInit [1, 5]).length)
              none :=
  fifo_read_channel specP_readConformance specInit rfl [1, 5] 5

/-- On the canonical implementor, the outputs of a run of `poll_write`
calls depend only on the write queue. -/
theorem drainPoll_write_congr {Rin Win Ein Rout Wout Eout Error : Type}
    (fr : Rin → List Rout) (fw : Win → List Wout) (fe : Ein → List Eout) :
    ∀ (n : Nat) (s t : SpecState Rout Wout Eout), s.writeQ = t.writeQ →
      (drainPoll (@specProtocol Rin Win Ein Rout Wout Eout Error fr fw fe).poll_write n s).1
        = (drainPoll (@specProtocol Rin Win Ein Rout Wout Eout Error fr fw fe).poll_write n t).1 := by
  intro n
  induction n with
  | zero => intro s t h; rfl
  | succ n ih =>
    rintro ⟨sr, sw, se, sd⟩ ⟨tr, tw, te, td⟩ h
    simp only at h
    subst h
    cases sw with
    | nil =>
      simp only [drainPoll, specProtocol]
      exact congrArg (List.cons none) (ih _ _ rfl)
    | cons x xs =>
      simp only [drainPoll, specProtocol]
      exact congrArg (List.cons (some x)) (ih _ _ rfl)

/-- On the canonical implementor, the outputs of a run of `poll_read`
calls depend only on the read queue. -/
theorem drainPoll_readq_congr {Rin Win Ein Rout Wout Eout Error : Type}
    (fr : Rin → List Rout) (fw : Win → List Wout) (fe : Ein → List Eout) :
    ∀ (n : Nat) (s t : SpecState Rout Wout Eout), s.readQ = t.readQ →
      (drainPoll (@specProtocol Rin Win Ein Rout Wout Eout Error fr fw fe).poll_read n s).1
        = (drainPoll (@specProtocol Rin Win Ein Rout Wout Eout Error fr fw fe).poll_read n t).1 := by
  intro n
  induction n with
  | zero => intro s t h; rfl
  | succ n ih =>
    rintro ⟨sr, sw, se, sd⟩ ⟨tr, tw, te, td⟩ h
    simp only at h
    subst h
    cases sr with
    | nil =>
      simp only [drainPoll, specProtocol]
      exact congrArg (List.cons none) (ih _ _ rfl)
    | cons x xs =>
      simp only [drainPoll, specProtocol]
      exact congrArg (List.cons (some x)) (ih _ _ rfl)

/-- On the canonical implementor, the outputs of a run of `poll_event`
calls depend only on the event queue. -/
theorem drainPoll_event_congr {Rin Win Ein Rout Wout Eout Error : Type}
    (fr : Rin → List Rout) (fw : Win → List Wout) (fe : Ein → List Eout) :
    ∀ (n : Nat) (s t : SpecState Rout Wout Eout), s.eventQ = t.eventQ →
      (drainPoll (@specProtocol Rin Win Ein Rout Wout Eout Error fr fw fe).poll_event n s).1
        = (drainPoll (@specProtocol Rin Win Ein Rout Wout Eout Error fr fw fe).poll_event n t).1 := by
  intro n
  induction n with
  | zero => intro s t h; rfl
  | succ n ih =>
    rintro ⟨sr, sw, se, sd⟩ ⟨tr, tw, te, td⟩ h
    simp only at h
    subst h
    cases se with
    | nil =>
      simp only [drainPoll, specProtocol]
      exact congrArg (List.cons none) (ih _ _ rfl)
    | cons x xs =>
      simp only [drainPoll, specProtocol]
      exact congrArg (List.cons (some x)) (ih _ _ rfl)

/-- Claim C7: on the canonical implementor the three channels are
independent: a `handle_read` call never changes the outputs of any run of
subsequent `poll_write` or `poll_event` calls, a `handle_write` call
never changes the outputs of subsequent `poll_read` or `poll_event`
calls, and a `handle_event` call never changes the outputs of subsequent
`poll_read` or `poll_write` calls. -/
theorem channels_independent {Rin Win Ein Rout Wout Eout Error : Type}
    (fr : Rin → List Rout) (fw : Win → List Wout) (fe : Ein → List Eout)
    (s : SpecState Rout Wout Eout) (m : Rin) (w : Win) (e : Ein) (n : Nat) :
    ((drainPoll (@specProtocol Rin Win Ein Rout Wout Eout Error fr fw fe).poll_write n
        ((@specProtocol Rin Win Ein Rout Wout Eout Error fr fw fe).handle_read s m).2).1
      = (drainPoll (@specProtocol Rin Win Ein Rout Wout Eout Error fr fw fe).poll_write n s).1) ∧
    ((drainPoll (@specProtocol Rin Win Ein Rout Wout Eout Error fr fw fe).poll_event n
        ((@specProtocol Rin Win Ein Rout Wout Eout Error fr fw fe).handle_read s m).2).1
      = (drainPoll (@specProtocol Rin Win Ein Rout Wout Eout Error fr fw fe).poll_event n s).1) ∧
    ((drainPoll (@specProtocol Rin Win Ein Rout Wout Eout Error fr fw fe).poll_read n
        ((@specProtocol Rin Win Ein Rout Wout Eout Error fr fw fe).handle_write s w).2).1
      = (drainPoll (@specProtocol Rin Win Ein Rout Wout Eout Error fr fw fe).poll_read n s).1) ∧
    ((drainPoll (@specProtocol Rin Win Ein Rout Wout Eout Error fr fw fe).poll_event n
        ((@specProtocol Rin Win Ein Rout Wout Eout Error fr fw fe).handle_write s w).2).1
      = (drainPoll (@specProtocol Rin Win Ein Rout Wout Eout Error fr fw fe).poll_event n s).1) ∧
    ((drainPoll (@specProtocol Rin Win Ein Rout Wout Eout Error fr fw fe).poll_read n
        ((@specProtocol Rin Win Ein Rout Wout Eout Error fr fw fe).handle_event s e).2).1
      = (drainPoll (@specProtocol Rin Win Ein Rout Wout Eout Error fr fw fe).poll_read n s).1) ∧
    ((drainPoll (@specProtocol Rin Win Ein Rout Wout Eout Error fr fw fe).poll_write n
        ((@specProtocol Rin Win Ein Rout Wout Eout Error fr fw fe).handle_event s e).2).1
      = (drainPoll (@specProtocol Rin Win Ein Rout Wout Eout Error fr fw fe).poll_write n s).1) := by
  refine ⟨?_, ?_, ?_, ?_, ?_, ?_⟩
  · exact drainPoll_write_congr fr fw fe n _ s rfl
  · exact drainPoll_event_congr fr fw fe n _ s rfl
  · exact drainPoll_readq_congr fr fw fe n _ s rfl
  · exact drainPoll_event_congr fr fw fe n _ s rfl
  · exact drainPoll_readq_congr fr fw fe n _ s rfl
  · exact drainPoll_write_congr fr fw fe n _ s rfl
